import Mathlib

/-!
Verification development for the AppBundler repository (Go).

The bundle-assembly pipeline is embedded shallowly:

* `PackageParameter` mirrors the `packageParameter` YAML struct of
  `readDescriptionFile.go`; the `Get...` functions mirror its getters.
* The on-disk state is a flat association list `Fs` from full path strings to
  entries (`FsEntry`); the primitive operations model `os.MkdirAll`,
  `os.RemoveAll`, `os.Create`/`WriteString`, `os.Chmod` and
  `fileManagement.Copy` in the success-deterministic interpretation (a
  primitive only fails where a claim exercises its failure, which is then
  passed in explicitly as an oracle argument).
* The package-level layout variables of `directoryManagement.go` are the
  fields of `AppState`; `initState` is their zero value at process start.
* `runMain` embeds the stage sequence of `main` for a run in which the
  optional external-tool stages (sign/notarize) are not requested.
* The recursive `fileManagement.CopyDirectory` is embedded separately at
  tree granularity (`Entry`, `copyEntry`), since the flat model does not
  track ownership.  Its per-entry type switch dispatches on `os.Stat` of the
  source path, which follows symbolic links; the model represents this by
  storing each symlink's `Stat` resolution alongside the link.

Strings are treated as sequences of characters (the Go sources only ever
handle ASCII literals, where byte length and character length agree).
-/

/-- Go `strings.HasSuffix s suffix`: byte-level suffix test, modeled on the
character list of the string. -/
def goHasSuffix (s suffix : String) : Bool :=
  suffix.data.isSuffixOf s.data

/-- Go `strings.ToLower`, modeled on the character list of the string. -/
def goToLower (s : String) : String :=
  ⟨s.data.map Char.toLower⟩

/-- Go `filepath.Join a b` for the two-argument calls in the sources: empty
components are dropped, the rest are joined with `/`. -/
def joinPath (a b : String) : String :=
  if a = "" then b
  else if b = "" then a
  else a ++ "/" ++ b

/-- The `packageParameter` struct of `readDescriptionFile.go`: the resolved
YAML configuration. Absent YAML fields resolve to `""`. -/
structure PackageParameter where
  BundleIdentifier : String := ""
  BundleName : String := ""
  BundleVersion : String := ""
  BundleDisplayName : String := ""
  BundlePackageType : String := ""
  BundleExecutable : String := ""
  BundleSignature : String := ""
  ExecFileName : String := ""
  ExecFileDirectory : String := ""
  IconFileName : String := ""
  IconFileDirectory : String := ""
  MinimumMacOSVersion : String := ""
  CFBundleDocumentTypes : String := ""
  CFBundleShortVersionString : String := ""
  NSHumanReadableCopyright : String := ""
  NSMainNibFile : String := ""
  NSPrincipalClass : String := ""
  LocalJava : String := ""
  LocalJavaHome : String := ""
  LocalExecDirectory : String := ""
deriving DecidableEq

def GetBundleIdentifier (cfg : PackageParameter) : String := cfg.BundleIdentifier

def GetBundleName (cfg : PackageParameter) : String := cfg.BundleName

def GetBundleVersion (cfg : PackageParameter) : String := cfg.BundleVersion

def GetBundleExecutable (cfg : PackageParameter) : String := cfg.BundleExecutable

def GetMinimumMacOSVersion (cfg : PackageParameter) : String := cfg.MinimumMacOSVersion

def GetIconFileName (cfg : PackageParameter) : String := cfg.IconFileName

def GetIconFileDirectory (cfg : PackageParameter) : String := cfg.IconFileDirectory

/-- `GetPackageType` of `readDescriptionFile.go`: the configured type, or the
three-character `"APP"` when the configured value is empty. -/
def GetPackageType (cfg : PackageParameter) : String :=
  if cfg.BundlePackageType ≠ "" then cfg.BundlePackageType else "APP"

def GetExecutableName (cfg : PackageParameter) : String := cfg.ExecFileName

def GetExecutableDirectory (cfg : PackageParameter) : String := cfg.ExecFileDirectory

/-- `GetUseLocalJava`: case-insensitive comparison of `local_java` against
the literal `"true"`. -/
def GetUseLocalJava (cfg : PackageParameter) : Bool :=
  if goToLower cfg.LocalJava = "true" then true else false

def GetJavaHomeDirectory (cfg : PackageParameter) : String := cfg.LocalJavaHome

def GetBundleDisplayName (cfg : PackageParameter) : String := cfg.BundleDisplayName

def GetBundleSignature (cfg : PackageParameter) : String := cfg.BundleSignature

def GetCFBundleShortVersionString (cfg : PackageParameter) : String :=
  cfg.CFBundleShortVersionString

def GetNSHumanReadableCopyright (cfg : PackageParameter) : String :=
  cfg.NSHumanReadableCopyright

def GetNSMainNibFile (cfg : PackageParameter) : String := cfg.NSMainNibFile

def GetNSPrincipalClass (cfg : PackageParameter) : String := cfg.NSPrincipalClass

def GetLocalExecDirectory (cfg : PackageParameter) : String := cfg.LocalExecDirectory

/-- An entry of the modeled filesystem: a directory or a regular file with
content and permission mode. -/
inductive FsEntry where
  | dir (mode : Nat)
  | file (content : String) (mode : Nat)
deriving DecidableEq

/-- The modeled on-disk state: an association list from full path strings to
entries (most recent write first). -/
abbrev Fs := List (String × FsEntry)

def Fs.lookupPath (fs : Fs) (p : String) : Option FsEntry :=
  (fs.find? (fun kv => kv.1 = p)).map (fun kv => kv.2)

/-- `os.Stat` existence (as used with `os.IsNotExist` in the sources). -/
def Fs.pathExists (fs : Fs) (p : String) : Bool :=
  fs.any (fun kv => decide (kv.1 = p))

/-- Write or overwrite the entry at `p`. -/
def Fs.setEntry (fs : Fs) (p : String) (e : FsEntry) : Fs :=
  (p, e) :: fs.filter (fun kv => kv.1 ≠ p)

/-- `os.MkdirAll p 0o755` in the success model: a no-op when `p` exists,
otherwise the directory is added. -/
def Fs.mkdirAll (fs : Fs) (p : String) : Fs :=
  if fs.pathExists p then fs else (p, FsEntry.dir 0o755) :: fs

/-- `p` is the path `root` itself or lies strictly below it. -/
def isUnder (root p : String) : Bool :=
  decide (p = root) || (root.data ++ ['/']).isPrefixOf p.data

/-- `os.RemoveAll p`: removes `p` and everything below it.  Go's `removeAll`
returns `nil` without touching anything when `path == ""` (an explicit guard
in its source), which the `p = ""` branch mirrors. -/
def Fs.removeAll (fs : Fs) (p : String) : Fs :=
  if p = "" then fs else fs.filter (fun kv => !isUnder p kv.1)

def FsEntry.withMode : FsEntry → Nat → FsEntry
  | FsEntry.dir _, m => FsEntry.dir m
  | FsEntry.file c _, m => FsEntry.file c m

/-- `os.Chmod p m` in the success model. -/
def Fs.chmod (fs : Fs) (p : String) (m : Nat) : Fs :=
  fs.map (fun kv => if kv.1 = p then (kv.1, kv.2.withMode m) else kv)

/-- The package-level layout variables of `directoryManagement.go`. -/
structure AppState where
  applicationDirectory : String
  contentsDir : String
  macosDir : String
  resourcesDir : String
  javaDir : String
  runtimeDir : String
deriving DecidableEq

/-- The zero value of the layout variables at process start. -/
def initState : AppState :=
  { applicationDirectory := "", contentsDir := "", macosDir := "",
    resourcesDir := "", javaDir := "", runtimeDir := "" }

/-- The path-assignment block of `CreateDirectoryStructure` for a non-empty
root name. -/
def layoutOf (root : String) : AppState :=
  let appDir := root ++ ".app"
  let contents := joinPath appDir "Contents"
  { applicationDirectory := appDir
    contentsDir := contents
    macosDir := joinPath contents "MacOS"
    resourcesDir := joinPath contents "Resources"
    javaDir := joinPath contents "Java"
    runtimeDir := joinPath (joinPath contents "Java") "runtime" }

/-- `DeleteAll` of `directoryManagement.go`: `os.RemoveAll` of the current
`applicationDirectory` (success model: `RemoveAll` itself does not fail; on
the empty path it is Go's explicit silent no-op). -/
def DeleteAll (s : AppState) (fs : Fs) : Option String × Fs :=
  (none, fs.removeAll s.applicationDirectory)

/-- `CreateDirectoryStructure` of `directoryManagement.go`: assigns the six
layout paths for a non-empty root and creates them in order with
`os.MkdirAll` (which cannot fail in the success model, so the per-step
`DeleteAll` error branches of the source are not reachable here); an empty
root is an error with no side effect. -/
def CreateDirectoryStructure (applicationRoot : String) (s : AppState)
    (fs : Fs) : Option String × AppState × Fs :=
  if applicationRoot ≠ "" then
    let s' := layoutOf applicationRoot
    let fs1 := fs.mkdirAll s'.applicationDirectory
    let fs2 := fs1.mkdirAll s'.contentsDir
    let fs3 := fs2.mkdirAll s'.macosDir
    let fs4 := fs3.mkdirAll s'.resourcesDir
    let fs5 := fs4.mkdirAll s'.javaDir
    let fs6 := fs5.mkdirAll s'.runtimeDir
    (none, s', fs6)
  else
    (some "Application root directory cannot be empty", s, fs)

/-- The `InfoPlistData` struct of the plist generator. -/
structure InfoPlistData where
  BundleIdentifier : String
  BundleName : String
  BundleDisplayName : String
  BundleVersion : String
  ShortVersionString : String
  ExecutableName : String
  Signature : String
  MinSystemVersion : String
  IconFile : String
  PackageType : String
  Copyright : String
  PrincipalClass : String
  MainNibFile : String
deriving DecidableEq

/-- The population block at the top of `CreatePlist`: each field is filled
from the corresponding configuration getter. -/
def plistDataOf (cfg : PackageParameter) : InfoPlistData :=
  { BundleIdentifier := GetBundleIdentifier cfg
    BundleVersion := GetBundleVersion cfg
    BundleName := GetBundleName cfg
    BundleDisplayName := GetBundleDisplayName cfg
    ShortVersionString := GetCFBundleShortVersionString cfg
    ExecutableName := GetBundleExecutable cfg
    Signature := GetBundleSignature cfg
    MinSystemVersion := GetMinimumMacOSVersion cfg
    IconFile := GetIconFileName cfg
    PackageType := GetPackageType cfg
    Copyright := GetNSHumanReadableCopyright cfg
    PrincipalClass := GetNSPrincipalClass cfg
    MainNibFile := GetNSMainNibFile cfg }

/-- The rendered `plistTemplate` with the fields substituted verbatim; the
two `if`-guarded keys are emitted only when their value is non-empty, exactly
as Go's template engine treats an empty string as false. -/
def renderPlistTemplate (d : InfoPlistData) : String :=
  "<?xml version=\"1.0\" encoding=\"UTF-8\"?>\n" ++
  "<!DOCTYPE plist PUBLIC \"-//Apple//DTD PLIST 1.0//EN\" \"http://www.apple.com/DTDs/PropertyList-1.0.dtd\">\n" ++
  "<plist version=\"1.0\">\n<dict>\n" ++
  "    <key>CFBundleIdentifier</key>\n    <string>" ++ d.BundleIdentifier ++ "</string>\n" ++
  "    <key>CFBundleName</key>\n    <string>" ++ d.BundleName ++ "</string>\n" ++
  "    <key>CFBundleDisplayName</key>\n    <string>" ++ d.BundleDisplayName ++ "</string>\n" ++
  "    <key>CFBundleVersion</key>\n    <string>" ++ d.BundleVersion ++ "</string>\n" ++
  "    <key>CFBundleShortVersionString</key>\n    <string>" ++ d.ShortVersionString ++ "</string>\n" ++
  "    <key>CFBundleExecutable</key>\n    <string>" ++ d.ExecutableName ++ "</string>\n" ++
  "    <key>CFBundleSignature</key>\n    <string>" ++ d.Signature ++ "</string>\n" ++
  "    <key>LSMinimumSystemVersion</key>\n    <string>" ++ d.MinSystemVersion ++ "</string>\n" ++
  "    <key>CFBundleIconFile</key>\n    <string>" ++ d.IconFile ++ "</string>\n" ++
  "    <key>CFBundlePackageType</key>\n    <string>" ++ d.PackageType ++ "</string>\n" ++
  "    <key>NSHumanReadableCopyright</key>\n    <string>" ++ d.Copyright ++ "</string>\n" ++
  "    " ++
  (if d.PrincipalClass ≠ "" then
    "<key>NSPrincipalClass</key>\n    <string>" ++ d.PrincipalClass ++ "</string>"
   else "") ++
  "\n    " ++
  (if d.MainNibFile ≠ "" then
    "<key>NSMainNibFile</key>\n    <string>" ++ d.MainNibFile ++ "</string>"
   else "") ++
  "\n</dict>\n</plist>"

/-- The first 4 bytes written by `CreatePkgInfo`: the package type, replaced
by `"APPL"` when its length is not 4. -/
def pkgTypePart (cfg : PackageParameter) : String :=
  let packageType := GetPackageType cfg
  if packageType.length ≠ 4 then "APPL" else packageType

/-- The last 4 bytes written by `CreatePkgInfo`: the signature, replaced by
`"????"` when its length is not 4. -/
def pkgSigPart (cfg : PackageParameter) : String :=
  let signature := GetBundleSignature cfg
  if signature.length ≠ 4 then "????" else signature

/-- The 8 bytes written by `CreatePkgInfo`. -/
def pkgInfoContent (cfg : PackageParameter) : String :=
  pkgTypePart cfg ++ pkgSigPart cfg

/-- `CreatePkgInfo`: creates `Contents/PkgInfo` (mode 0666 from `os.Create`)
and writes the 8-byte content. In the success model the create and write
succeed, so the `cleanAfterError` branch of the source is not reachable
here. -/
def CreatePkgInfo (cfg : PackageParameter) (s : AppState) (fs : Fs) :
    Option String × Fs :=
  let pkgInfoFileName := joinPath s.contentsDir "PkgInfo"
  (none, (fs.setEntry pkgInfoFileName (FsEntry.file "" 0o666)).setEntry
    pkgInfoFileName (FsEntry.file (pkgInfoContent cfg) 0o666))

/-- `cleanAfterError`: deletes the whole bundle when the layout has been
initialized, and returns the original error's presence unchanged. -/
def cleanAfterErrorFs (s : AppState) (fs : Fs) : Fs :=
  if s.applicationDirectory ≠ "" then (DeleteAll s fs).2 else fs

/-- `CreatePlist`: populates the data, writes `Contents/PkgInfo` first (via
`CreatePkgInfo`), then validates the six mandatory fields — returning the
validation error without `cleanAfterError` and without writing `Info.plist`
— and finally creates and renders `Contents/Info.plist`.  The oracle
`createInfoPlistFails` makes the `os.Create` of `Info.plist` fail, which in
the source triggers `cleanAfterError`; template parsing/execution of the
constant template cannot fail. -/
def CreatePlist (cfg : PackageParameter) (s : AppState)
    (createInfoPlistFails : Bool) (fs : Fs) : Option String × Fs :=
  let plistStructure := plistDataOf cfg
  let plistFileName := joinPath s.contentsDir "Info.plist"
  match CreatePkgInfo cfg s fs with
  | (some e, fs1) => (some e, fs1)
  | (none, fs1) =>
    if plistStructure.BundleIdentifier = "" ∨ plistStructure.BundleVersion = "" ∨
        plistStructure.BundleName = "" ∨ plistStructure.ExecutableName = "" ∨
        plistStructure.MinSystemVersion = "" ∨ plistStructure.IconFile = "" then
      (some "Info.plist <mandatory fields missing>", fs1)
    else if createInfoPlistFails then
      (some "create Info.plist failed", cleanAfterErrorFs s fs1)
    else
      (none, (fs1.setEntry plistFileName (FsEntry.file "" 0o666)).setEntry
        plistFileName (FsEntry.file (renderPlistTemplate plistStructure) 0o666))

/-- `fileManagement.Copy`: `os.Create` of the destination first (an empty
0666 file), then `os.Open` of the source; a missing or non-regular source is
an error that leaves the just-created empty destination behind, exactly as
in the source's create-before-open order. -/
def fmCopy (fs : Fs) (srcFile dstFile : String) : Option String × Fs :=
  let fs1 := fs.setEntry dstFile (FsEntry.file "" 0o666)
  match fs1.lookupPath srcFile with
  | some (FsEntry.file c _) =>
    (none, fs1.setEntry dstFile (FsEntry.file c 0o666))
  | _ => (some ("open " ++ srcFile ++ ": no such file or directory"), fs1)

/-- `copyCompExec`: copy the binary into `Contents/MacOS` and set its mode
to 0755. -/
def copyCompExec (s : AppState) (fs : Fs) (execPath execFile : String) :
    Option String × Fs :=
  let executablePath := joinPath s.macosDir execFile
  let sourceFileName := joinPath execPath execFile
  match fmCopy fs sourceFileName executablePath with
  | (some e, fs1) => (some e, fs1)
  | (none, fs1) => (none, fs1.chmod executablePath 0o755)

/-- The launcher script emitted for a bundled local Java runtime. -/
def bundledJavaScript (execFile : String) : String :=
  "#!/bin/bash\n\nDIR=\"$(cd \"$(dirname \"$0\")\" && pwd)\"\nexport JAVA_HOME=\"$DIR/../Java/runtime\"\n\"$JAVA_HOME/bin/java\" -jar \"$DIR/" ++
  execFile ++ "\"\n"

/-- The launcher script emitted for the system Java runtime. -/
def systemJavaScript (execFile : String) : String :=
  "#!/bin/bash\n\nDIR=\"$(cd \"$(dirname \"$0\")\" && pwd)\"\njava -jar \"$DIR/" ++
  execFile ++ "\"\n"

/-- `copyJarExec`: (1) when local Java is enabled, stage the Java tree via
`fileManagement.CopyDirectory` — its outcome is the oracle `javaCopyResult`
and its tree-level content effect is modeled separately by `copyEntry` —
aborting on failure; (2) copy the JAR into `Contents/MacOS`; (3) create the
launcher script under the bundle-executable name, write the template, and
chmod it 0755 (create/write/chmod succeed in the success model). -/
def copyJarExec (cfg : PackageParameter) (s : AppState)
    (javaCopyResult : Option String) (fs : Fs) (execPath execFile : String) :
    Option String × Fs :=
  let executableName := joinPath s.macosDir (GetBundleExecutable cfg)
  let step1 : Option String × Fs :=
    if GetUseLocalJava cfg = true then
      match javaCopyResult with
      | some e => (some e, fs)
      | none => (none, fs)
    else (none, fs)
  match step1 with
  | (some e, fs1) => (some e, fs1)
  | (none, fs1) =>
    let compiledJarSourceName := joinPath execPath execFile
    let compiledJarTargetName := joinPath s.macosDir execFile
    match fmCopy fs1 compiledJarSourceName compiledJarTargetName with
    | (some e, fs2) => (some e, fs2)
    | (none, fs2) =>
      let fs3 := fs2.setEntry executableName (FsEntry.file "" 0o666)
      let startString :=
        if GetUseLocalJava cfg = true then bundledJavaScript execFile
        else systemJavaScript execFile
      let fs4 := fs3.setEntry executableName (FsEntry.file startString 0o666)
      (none, fs4.chmod executableName 0o755)

/-- The executable source directory used by both `ValidateConfiguration` and
`CopyExecutable`: `local_exec_directory` overrides `exec_file_directory`
when non-empty. -/
def execDirOf (cfg : PackageParameter) : String :=
  if GetLocalExecDirectory cfg ≠ "" then GetLocalExecDirectory cfg
  else GetExecutableDirectory cfg

/-- `CopyExecutable`: chooses the JAR strategy exactly when the configured
executable filename has the literal suffix `"jar"`, the binary strategy
otherwise — and then returns `nil` regardless of the strategy's error (the
source only logs the failure). -/
def CopyExecutable (cfg : PackageParameter) (s : AppState)
    (javaCopyResult : Option String) (fs : Fs) : Option String × Fs :=
  let execFile := GetExecutableName cfg
  let execPath := execDirOf cfg
  let r :=
    if goHasSuffix execFile "jar" then
      copyJarExec cfg s javaCopyResult fs execPath execFile
    else
      copyCompExec s fs execPath execFile
  (none, r.2)

/-- `CopyIcon`: fails on an empty configured icon filename; resolves the
source by joining the optional icon directory; opens the source (failing
when it is missing or not a regular file, before the destination is
created), copies it into `Contents/Resources`, and copies the source's mode
onto the destination. -/
def CopyIcon (cfg : PackageParameter) (s : AppState) (fs : Fs) :
    Option String × Fs :=
  let iconSource := GetIconFileName cfg
  let iconDirectory := GetIconFileDirectory cfg
  let iconPath := joinPath s.resourcesDir iconSource
  if iconSource = "" then
    (some ("icon filename " ++ iconSource ++ " is not defined"), fs)
  else
    let iconSource1 :=
      if iconDirectory ≠ "" then joinPath iconDirectory iconSource
      else iconSource
    match fs.lookupPath iconSource1 with
    | some (FsEntry.file c m) =>
      let fs1 := fs.setEntry iconPath (FsEntry.file "" 0o666)
      let fs2 := fs1.setEntry iconPath (FsEntry.file c 0o666)
      (none, fs2.chmod iconPath m)
    | _ => (some ("open " ++ iconSource1 ++ ": no such file or directory"), fs)

/-- `ValidateConfiguration`: pre-flight existence checks of the executable
source, the icon source (when an icon filename is configured), and the Java
home (when local Java is enabled); `os.Stat` failure is modeled as
non-existence. -/
def ValidateConfiguration (cfg : PackageParameter) (fs : Fs) : Option String :=
  let fullExecPath := joinPath (execDirOf cfg) (GetExecutableName cfg)
  if ¬ fs.pathExists fullExecPath then
    some ("executable file not found: " ++ fullExecPath)
  else if GetIconFileName cfg ≠ "" ∧
      ¬ fs.pathExists (joinPath (GetIconFileDirectory cfg) (GetIconFileName cfg)) then
    some ("icon file not found: " ++
      joinPath (GetIconFileDirectory cfg) (GetIconFileName cfg))
  else if GetUseLocalJava cfg = true ∧
      ¬ fs.pathExists (GetJavaHomeDirectory cfg) then
    some ("local Java home directory not found: " ++ GetJavaHomeDirectory cfg)
  else
    none

/-- The clean step of `main`: when `-clean` is set, `DeleteAll` is invoked
on the layout state as it is at that point of the run. -/
def mainCleanStep (clean : Bool) (s : AppState) (fs : Fs) : Fs :=
  if clean then (DeleteAll s fs).2 else fs

/-- The stage sequence of `main` for a run without the optional
sign/notarize external-tool stages: validate, optionally clean (with the
layout variables still at their zero value), create the directory structure,
render the metadata, stage the payload, stage the icon, and optionally
delete.  An error at any stage is `errorExit`: the process terminates with
the on-disk state exactly as the failing stage left it (`logger.Error` calls
`log.Fatalln`, which exits without any cleanup). -/
def runMain (cfg : PackageParameter) (clean deleteFlagSet : Bool)
    (javaCopyResult : Option String) (fs0 : Fs) :
    Option String × AppState × Fs :=
  match ValidateConfiguration cfg fs0 with
  | some e => (some e, initState, fs0)
  | none =>
    let fs1 := mainCleanStep clean initState fs0
    match CreateDirectoryStructure (GetBundleName cfg) initState fs1 with
    | (some e, s, fs2) => (some e, s, fs2)
    | (none, s, fs2) =>
      match CreatePlist cfg s false fs2 with
      | (some e, fs3) => (some e, s, fs3)
      | (none, fs3) =>
        let fs4 := (CopyExecutable cfg s javaCopyResult fs3).2
        match CopyIcon cfg s fs4 with
        | (some e, fs5) => (some e, s, fs5)
        | (none, fs5) =>
          if deleteFlagSet then
            match DeleteAll s fs5 with
            | (some e, fs6) => (some e, s, fs6)
            | (none, fs6) => (none, s, fs6)
          else (none, s, fs5)

mutual

/-- One entry of a directory tree as the `fileManagement.CopyDirectory`
loop sees it: a regular file (content, permission mode, owner/group id), a
symbolic link (target path, the link's own owner/group id, and what
`os.Stat` of the link's path resolves to — `os.Stat` follows links), or a
directory with its children in `os.ReadDir` order. -/
inductive Entry where
  | file (name content : String) (mode uid gid : Nat)
  | symlink (name target : String) (uid gid : Nat) (resolution : Resolution)
  | dir (name : String) (mode uid gid : Nat) (children : EntryList)

/-- What `os.Stat` reports for a symlink's path: the fully resolved final
target — a regular file or a directory with its children — or an error for
a broken link. -/
inductive Resolution where
  | broken
  | toFile (content : String) (mode uid gid : Nat)
  | toDir (mode uid gid : Nat) (children : EntryList)

/-- The children of a directory, in `os.ReadDir` order. -/
inductive EntryList where
  | nil
  | cons (e : Entry) (rest : EntryList)

end

/-- `os.Lchown dest uid gid`: set the owner and group of an entry (applied
to a link itself, not its target). -/
def chownEntry : Entry → Nat → Nat → Entry
  | Entry.file n c m _ _, u, g => Entry.file n c m u g
  | Entry.symlink n t _ _ r, u, g => Entry.symlink n t u g r
  | Entry.dir n m _ _ cs, u, g => Entry.dir n m u g cs

/-- `os.Chmod dest m`: set the permission mode of a file or directory. -/
def chmodEntry : Entry → Nat → Entry
  | Entry.file n c _ u g, m => Entry.file n c m u g
  | Entry.symlink n t u g r, _ => Entry.symlink n t u g r
  | Entry.dir n _ u g cs, m => Entry.dir n m u g cs

mutual

/-- The per-entry body of `fileManagement.CopyDirectory`, run by the process
with uid `pu` and gid `pg`.  The type switch dispatches on the
`os.Stat`-reported mode, so the `os.ModeSymlink` case of the source (which
would call `CopySymLink`) is dead code: a regular file hits the default
branch (`Copy` creates the destination with mode 0666 owned by the process,
then `Lchown` to the source's ids and `Chmod` to the source's mode); a
symlink whose `Stat` fails (broken link) aborts the whole copy; a symlink
resolving to a regular file hits the default branch too — its target's
content is copied as a plain 0666 file, `Lchown` uses the `Stat` (target)
ids, and the `Chmod` is skipped because `entry.Info()` reports a symlink; a
symlink resolving to a directory is created as a fresh 0755 directory and
recursed through the link, again skipping the `Chmod`; a directory is
created with 0755 (`CreateIfNotExists`), its children copied recursively,
then `Lchown`ed and `Chmod`ed to the source's ids and mode. -/
def copyEntry (pu pg : Nat) : Entry → Except String Entry
  | Entry.file n c m u g =>
    Except.ok (chmodEntry (chownEntry (Entry.file n c 0o666 pu pg) u g) m)
  | Entry.symlink n _t _u _g Resolution.broken =>
    Except.error ("stat " ++ n ++ ": no such file or directory")
  | Entry.symlink n _t _u _g (Resolution.toFile c _tm tu tg) =>
    Except.ok (chownEntry (Entry.file n c 0o666 pu pg) tu tg)
  | Entry.symlink n _t _u _g (Resolution.toDir _tm tu tg tcs) =>
    match copyEntryChildren pu pg tcs with
    | Except.error e => Except.error e
    | Except.ok tcs2 => Except.ok (chownEntry (Entry.dir n 0o755 pu pg tcs2) tu tg)
  | Entry.dir n m u g cs =>
    match copyEntryChildren pu pg cs with
    | Except.error e => Except.error e
    | Except.ok cs2 =>
      Except.ok (chmodEntry (chownEntry (Entry.dir n 0o755 pu pg cs2) u g) m)

/-- The entry loop of `fileManagement.CopyDirectory` over the children of a
directory: entries are processed in order and the first failure aborts the
loop. -/
def copyEntryChildren (pu pg : Nat) : EntryList → Except String EntryList
  | EntryList.nil => Except.ok EntryList.nil
  | EntryList.cons e rest =>
    match copyEntry pu pg e with
    | Except.error err => Except.error err
    | Except.ok e2 =>
      match copyEntryChildren pu pg rest with
      | Except.error err => Except.error err
      | Except.ok rest2 => Except.ok (EntryList.cons e2 rest2)

end

/-- `fileManagement.CopyDirectory src dest`, at tree granularity: the
replication of the children of the source directory into the destination
directory. -/
def CopyDirectory (pu pg : Nat) (src : EntryList) : Except String EntryList :=
  copyEntryChildren pu pg src

mutual

/-- Whether an entry is, or contains, a symbolic link. -/
def entryHasSymlink : Entry → Bool
  | Entry.file _ _ _ _ _ => false
  | Entry.symlink _ _ _ _ _ => true
  | Entry.dir _ _ _ _ cs => childrenHaveSymlink cs

/-- Whether a child list contains a symbolic link. -/
def childrenHaveSymlink : EntryList → Bool
  | EntryList.nil => false
  | EntryList.cons e rest => entryHasSymlink e || childrenHaveSymlink rest

end

theorem Fs.lookupPath_setEntry_self (fs : Fs) (p : String) (e : FsEntry) :
    (fs.setEntry p e).lookupPath p = some e := by
  simp [Fs.setEntry, Fs.lookupPath, List.find?]

theorem List.find?_filter_ne_path (fs : Fs) (p q : String) (h : q ≠ p) :
    (fs.filter (fun kv => kv.1 ≠ p)).find? (fun kv => decide (kv.1 = q)) =
      fs.find? (fun kv => decide (kv.1 = q)) := by
  induction fs with
  | nil => rfl
  | cons kv rest ih =>
    by_cases hk : kv.1 = p
    · rw [List.filter_cons_of_neg (by simpa using hk)]
      rw [List.find?_cons_of_neg _ (by simp [hk, Ne.symm h]), ih]
    · rw [List.filter_cons_of_pos (by simpa using hk)]
      by_cases hq : kv.1 = q
      · rw [List.find?_cons_of_pos _ (by simp [hq]),
          List.find?_cons_of_pos _ (by simp [hq])]
      · rw [List.find?_cons_of_neg _ (by simp [hq]),
          List.find?_cons_of_neg _ (by simp [hq]), ih]

theorem Fs.lookupPath_setEntry_ne (fs : Fs) (p q : String) (e : FsEntry)
    (h : q ≠ p) : (fs.setEntry p e).lookupPath q = fs.lookupPath q := by
  simp only [Fs.setEntry, Fs.lookupPath]
  rw [List.find?_cons_of_neg _ (by simpa using Ne.symm h)]
  rw [List.find?_filter_ne_path fs p q h]

theorem Fs.pathExists_setEntry_self (fs : Fs) (p : String) (e : FsEntry) :
    (fs.setEntry p e).pathExists p = true := by
  simp [Fs.setEntry, Fs.pathExists]

theorem Fs.lookupPath_chmod_self (fs : Fs) (p : String) (m : Nat) :
    (fs.chmod p m).lookupPath p = (fs.lookupPath p).map (fun e => e.withMode m) := by
  simp only [Fs.chmod, Fs.lookupPath]
  induction fs with
  | nil => rfl
  | cons kv rest ih =>
    by_cases hk : kv.1 = p
    · simp [hk]
    · simp only [List.map_cons, if_neg hk]
      rw [List.find?_cons_of_neg _ (by simp [hk]),
        List.find?_cons_of_neg _ (by simp [hk])]
      exact ih

theorem Fs.pathExists_filter_eq_false (fs : Fs) (q : String → Bool)
    (p : String) (h : q p = false) :
    Fs.pathExists (fs.filter (fun kv => q kv.1)) p = false := by
  simp only [Fs.pathExists, List.any_eq_false]
  intro kv hkv
  have hq := List.of_mem_filter hkv
  simp only [decide_eq_true_eq]
  intro hkp
  rw [hkp, h] at hq
  exact Bool.false_ne_true hq

/-- After `RemoveAll r` nothing at or below `r` exists. -/
theorem Fs.pathExists_removeAll_of_isUnder (fs : Fs) (r p : String)
    (hr : r ≠ "") (h : isUnder r p = true) :
    (fs.removeAll r).pathExists p = false := by
  simp only [Fs.removeAll, if_neg hr]
  exact Fs.pathExists_filter_eq_false fs (fun s => !isUnder r s) p (by simp [h])

theorem isUnder_self (r : String) : isUnder r r = true := by
  simp [isUnder]

theorem String.data_append_model (a b : String) : (a ++ b).data = a.data ++ b.data := rfl

/-- Joining a non-empty suffix below `p` stays under any non-empty root that
`p` is under. -/
theorem isUnder_joinPath (r p x : String) (hr : r ≠ "") (hx : x ≠ "")
    (h : isUnder r p = true) : isUnder r (joinPath p x) = true := by
  rcases Bool.or_eq_true _ _ |>.mp h with h1 | h1
  · have hp : p = r := by simpa using h1
    subst hp
    simp only [joinPath, if_neg hr, if_neg hx, isUnder, Bool.or_eq_true]
    right
    apply List.isPrefixOf_iff_prefix.mpr
    have hdata : (p ++ "/" ++ x).data = (p.data ++ ['/']) ++ x.data := rfl
    rw [hdata]
    exact List.prefix_append _ _
  · have hpre : (r.data ++ ['/']) <+: p.data := List.isPrefixOf_iff_prefix.mp h1
    have hpne : p ≠ "" := by
      intro hp
      rw [hp] at hpre
      have := hpre.length_le
      simp at this
    simp only [joinPath, if_neg hpne, if_neg hx, isUnder, Bool.or_eq_true]
    right
    apply List.isPrefixOf_iff_prefix.mpr
    have hdata : (p ++ "/" ++ x).data = p.data ++ ('/' :: x.data) := by
      rw [String.data_append_model, String.data_append_model, List.append_assoc]
      rfl
    rw [hdata]
    exact hpre.trans (List.prefix_append _ _)

theorem Fs.lookupPath_chmod_ne (fs : Fs) (p q : String) (m : Nat)
    (h : q ≠ p) : (fs.chmod p m).lookupPath q = fs.lookupPath q := by
  simp only [Fs.chmod, Fs.lookupPath]
  induction fs with
  | nil => rfl
  | cons kv rest ih =>
    simp only [List.map_cons]
    by_cases hk : kv.1 = p
    · rw [if_pos hk]
      rw [List.find?_cons_of_neg _ (by simp [hk, Ne.symm h]),
        List.find?_cons_of_neg _ (by simp [hk, Ne.symm h])]
      exact ih
    · rw [if_neg hk]
      by_cases hq : kv.1 = q
      · rw [List.find?_cons_of_pos _ (by simp [hq]),
          List.find?_cons_of_pos _ (by simp [hq])]
      · rw [List.find?_cons_of_neg _ (by simp [hq]),
          List.find?_cons_of_neg _ (by simp [hq])]
        exact ih

/-- A root with the `.app` suffix appended is never the empty path. -/
theorem appApp_ne_empty (root : String) : root ++ ".app" ≠ "" := by
  intro h
  have hd : (root ++ ".app").data = ([] : List Char) := by rw [h]
  rw [String.data_append_model] at hd
  have h2 := (List.append_eq_nil.mp hd).2
  exact absurd h2 (by decide)

/-- Removing a subtree commutes past a directory creation inside that
subtree: the freshly created directory is removed again. -/
theorem Fs.removeAll_mkdirAll_of_isUnder (fs : Fs) (r p : String)
    (hr : r ≠ "") (h : isUnder r p = true) :
    (fs.mkdirAll p).removeAll r = fs.removeAll r := by
  simp only [Fs.mkdirAll]
  by_cases he : fs.pathExists p
  · rw [if_pos he]
  · rw [if_neg he]
    simp only [Fs.removeAll, if_neg hr]
    rw [List.filter_cons_of_neg (by simp [h])]

/-- `RemoveAll r` keeps a filesystem untouched when nothing in it is at or
below `r`. -/
theorem Fs.removeAll_eq_self (fs : Fs) (r : String)
    (h : ∀ kv ∈ fs, isUnder r kv.1 = false) : fs.removeAll r = fs := by
  by_cases hr : r = ""
  · simp [Fs.removeAll, hr]
  · simp only [Fs.removeAll, if_neg hr]
    apply List.filter_eq_self.mpr
    intro kv hkv
    simp [h kv hkv]

/-- Configuration of the C9 witness: an ordinary bundle description. -/
def c9WitnessCfg : PackageParameter :=
  { BundleIdentifier := "com.x.sample", BundleName := "Sample",
    BundleVersion := "1.0", BundleExecutable := "launch",
    MinimumMacOSVersion := "10.13.0", IconFileName := "icon.icns",
    ExecFileName := "app.bin", ExecFileDirectory := "dist" }

/-- C9: when the clean-before-build flag is set, `main` invokes `DeleteAll`
before `CreateDirectoryStructure` has initialized the layout variables, so
the package-level bundle-root path is still the empty string; Go's
`os.RemoveAll("")` is a silent no-op, so for any pre-existing `<name>.app`
bundle on disk the clean step removes nothing and reports no error. -/
theorem c9_cleanStep_noop (cfg : PackageParameter) (fs : Fs)
    (_hpre : Fs.pathExists fs (GetBundleName cfg ++ ".app") = true) :
    initState.applicationDirectory = "" ∧
    (DeleteAll initState fs).1 = none ∧
    mainCleanStep true initState fs = fs := by
  refine ⟨rfl, rfl, ?_⟩
  simp [mainCleanStep, DeleteAll, initState, Fs.removeAll]

/-- Witness for C9 at a concrete configuration and a disk state that holds a
fully populated pre-existing `Sample.app` bundle. -/
theorem c9_cleanStep_noop_witness :
    mainCleanStep true initState
        [("Sample.app", FsEntry.dir 0o755),
         ("Sample.app/Contents", FsEntry.dir 0o755),
         ("Sample.app/Contents/PkgInfo", FsEntry.file "APPL????" 0o666)] =
      [("Sample.app", FsEntry.dir 0o755),
       ("Sample.app/Contents", FsEntry.dir 0o755),
       ("Sample.app/Contents/PkgInfo", FsEntry.file "APPL????" 0o666)] :=
  (c9_cleanStep_noop c9WitnessCfg
    [("Sample.app", FsEntry.dir 0o755),
     ("Sample.app/Contents", FsEntry.dir 0o755),
     ("Sample.app/Contents/PkgInfo", FsEntry.file "APPL????" 0o666)]
    (by decide)).2.2

/-- Configuration of the C2 failing input: a plain binary payload whose
configured source `dist/app.bin` does not exist on disk. -/
def c2Cfg : PackageParameter :=
  { BundleIdentifier := "com.x.sample", BundleName := "Sample",
    BundleVersion := "1.0", BundleExecutable := "launch",
    MinimumMacOSVersion := "10.13.0", IconFileName := "icon.icns",
    ExecFileName := "app.bin", ExecFileDirectory := "dist" }

/-- C2 (code bug): at the failing input — `exec_file` `app.bin` in
`exec_file_directory` `dist` with no `dist/app.bin` on disk — the binary
strategy `copyCompExec` fails with a non-nil error, yet `CopyExecutable`
returns `nil`: it reports success although the underlying staging step
failed, contradicting its own documented contract (`Returns an error if the
copy operation fails.`). -/
theorem c2_copyExecutable_swallows_error :
    (copyCompExec (layoutOf "Sample") [] (execDirOf c2Cfg)
        (GetExecutableName c2Cfg)).1.isSome = true ∧
    (CopyExecutable c2Cfg (layoutOf "Sample") none []).1 = none := by
  exact ⟨rfl, rfl⟩

def c3Cfg : PackageParameter :=
  { BundlePackageType := "GOOD", BundleSignature := "AB" }

/-- C3 counterexample: with configured package type `"GOOD"` (length 4) and
signature `"AB"` (length 2), the claim's condition holds (one of the two
strings does not have length 4), yet the 8 bytes written to
`Contents/PkgInfo` are `"GOOD????"`, not `"APPL" ++ "????"`: the two
defaults apply independently, not jointly. -/
theorem c3_counterexample :
    (c3Cfg.BundlePackageType.length ≠ 4 ∨ c3Cfg.BundleSignature.length ≠ 4) ∧
    Fs.lookupPath (CreatePkgInfo c3Cfg (layoutOf "Sample") []).2
        "Sample.app/Contents/PkgInfo" = some (FsEntry.file "GOOD????" 0o666) ∧
    ("GOOD????" : String) ≠ "APPL" ++ "????" := by
  refine ⟨Or.inr (by decide), by decide, by decide⟩

theorem pkgTypePart_length (cfg : PackageParameter) :
    (pkgTypePart cfg).length = 4 := by
  simp only [pkgTypePart]
  by_cases h : (GetPackageType cfg).length = 4
  · rw [if_neg (by simpa using h)]
    exact h
  · rw [if_pos (by simpa using h)]
    decide

theorem pkgSigPart_length (cfg : PackageParameter) :
    (pkgSigPart cfg).length = 4 := by
  simp only [pkgSigPart]
  by_cases h : (GetBundleSignature cfg).length = 4
  · rw [if_neg (by simpa using h)]
    exact h
  · rw [if_pos (by simpa using h)]
    decide

theorem pkgTypePart_of_ne_four (cfg : PackageParameter)
    (h : cfg.BundlePackageType.length ≠ 4) : pkgTypePart cfg = "APPL" := by
  simp only [pkgTypePart, GetPackageType]
  by_cases he : cfg.BundlePackageType = ""
  · simp only [he]
    decide
  · simp [he, h]

theorem pkgTypePart_of_eq_four (cfg : PackageParameter)
    (h : cfg.BundlePackageType.length = 4) :
    pkgTypePart cfg = cfg.BundlePackageType := by
  have hne : cfg.BundlePackageType ≠ "" := by
    intro he
    rw [he] at h
    exact absurd h (by decide)
  simp [pkgTypePart, GetPackageType, hne, h]

theorem pkgSigPart_of_ne_four (cfg : PackageParameter)
    (h : cfg.BundleSignature.length ≠ 4) : pkgSigPart cfg = "????" := by
  simp only [pkgSigPart, GetBundleSignature]
  rw [if_pos (by simpa using h)]

theorem pkgSigPart_of_eq_four (cfg : PackageParameter)
    (h : cfg.BundleSignature.length = 4) :
    pkgSigPart cfg = cfg.BundleSignature := by
  simp only [pkgSigPart, GetBundleSignature]
  rw [if_neg (by simpa using h)]

/-- C3 amended: `CreatePkgInfo` always writes exactly 8 bytes, and the two
halves default independently: the first 4 bytes are `"APPL"` exactly when
the configured package-type string does not have length 4 (otherwise they
are the configured type), and the last 4 bytes are `"????"` exactly when the
configured signature does not have length 4 (otherwise they are the
configured signature). -/
theorem c3_pkgInfo_amended (cfg : PackageParameter) :
    (pkgInfoContent cfg).length = 8 ∧
    (cfg.BundlePackageType.length ≠ 4 →
      ∃ t, pkgInfoContent cfg = "APPL" ++ t ∧ t.length = 4) ∧
    (cfg.BundlePackageType.length = 4 →
      ∃ t, pkgInfoContent cfg = cfg.BundlePackageType ++ t ∧ t.length = 4) ∧
    (cfg.BundleSignature.length ≠ 4 →
      ∃ t, pkgInfoContent cfg = t ++ "????" ∧ t.length = 4) ∧
    (cfg.BundleSignature.length = 4 →
      ∃ t, pkgInfoContent cfg = t ++ cfg.BundleSignature ∧ t.length = 4) := by
  refine ⟨?_, ?_, ?_, ?_, ?_⟩
  · rw [pkgInfoContent, String.length_append, pkgTypePart_length,
      pkgSigPart_length]
  · intro h
    exact ⟨pkgSigPart cfg, by rw [pkgInfoContent, pkgTypePart_of_ne_four cfg h],
      pkgSigPart_length cfg⟩
  · intro h
    exact ⟨pkgSigPart cfg, by rw [pkgInfoContent, pkgTypePart_of_eq_four cfg h],
      pkgSigPart_length cfg⟩
  · intro h
    exact ⟨pkgTypePart cfg, by rw [pkgInfoContent, pkgSigPart_of_ne_four cfg h],
      pkgTypePart_length cfg⟩
  · intro h
    exact ⟨pkgTypePart cfg, by rw [pkgInfoContent, pkgSigPart_of_eq_four cfg h],
      pkgTypePart_length cfg⟩

/-- Witness for the amended C3 at a configuration with a length-4 type and a
short signature: the written bytes keep the configured type and default only
the signature half. -/
theorem c3_pkgInfo_amended_witness :
    (pkgInfoContent { BundlePackageType := "GOOD", BundleSignature := "AB" }).length = 8 ∧
    (∃ t, pkgInfoContent { BundlePackageType := "GOOD", BundleSignature := "AB" } =
      ({ BundlePackageType := "GOOD", BundleSignature := "AB" } :
        PackageParameter).BundlePackageType ++ t ∧ t.length = 4) :=
  ⟨(c3_pkgInfo_amended _).1,
   (c3_pkgInfo_amended
     { BundlePackageType := "GOOD", BundleSignature := "AB" }).2.2.1 (by decide)⟩

/-- C10: when the configured package type is empty, the plist data rendered
by `CreatePlist` carries the three-character `CFBundlePackageType` value
`"APP"` (the `GetPackageType` fallback), while the `PkgInfo` type bytes are
`"APPL"` (the length-4 check rejects `"APP"` and replaces it): the two
metadata artifacts disagree. -/
theorem c10_packageType_disagreement (cfg : PackageParameter)
    (h : cfg.BundlePackageType = "") :
    (plistDataOf cfg).PackageType = "APP" ∧
    (∃ t, pkgInfoContent cfg = "APPL" ++ t ∧ t.length = 4) ∧
    ("APP" : String) ≠ "APPL" := by
  refine ⟨?_, ?_, by decide⟩
  · show GetPackageType cfg = "APP"
    simp [GetPackageType, h]
  · refine ⟨pkgSigPart cfg, ?_, pkgSigPart_length cfg⟩
    rw [pkgInfoContent, pkgTypePart_of_ne_four cfg (by simp [h])]

/-- Witness for C10 at a configuration whose `type` field is absent. -/
theorem c10_packageType_disagreement_witness :
    (plistDataOf { BundleName := "Sample" }).PackageType = "APP" ∧
    (∃ t, pkgInfoContent { BundleName := "Sample" } = "APPL" ++ t ∧
      t.length = 4) ∧
    ("APP" : String) ≠ "APPL" :=
  c10_packageType_disagreement { BundleName := "Sample" } rfl

/-- C4: whenever one of the six mandatory fields (identifier, version, name,
executable name, minimum-OS version, icon filename) is empty, `CreatePlist`
returns the validation error, the only write it has performed is the
`Contents/PkgInfo` file — which was rendered before the validation ran and
is left on disk — and in particular `Contents/Info.plist` is not written. -/
theorem c4_plist_validation (cfg : PackageParameter) (s : AppState) (fs : Fs)
    (h : cfg.BundleIdentifier = "" ∨ cfg.BundleVersion = "" ∨
      cfg.BundleName = "" ∨ cfg.BundleExecutable = "" ∨
      cfg.MinimumMacOSVersion = "" ∨ cfg.IconFileName = "") :
    (CreatePlist cfg s false fs).1 = some "Info.plist <mandatory fields missing>" ∧
    (∀ p, p ≠ joinPath s.contentsDir "PkgInfo" →
      Fs.lookupPath (CreatePlist cfg s false fs).2 p = Fs.lookupPath fs p) ∧
    Fs.lookupPath (CreatePlist cfg s false fs).2 (joinPath s.contentsDir "PkgInfo") =
      some (FsEntry.file (pkgInfoContent cfg) 0o666) := by
  have hcond : (plistDataOf cfg).BundleIdentifier = "" ∨
      (plistDataOf cfg).BundleVersion = "" ∨ (plistDataOf cfg).BundleName = "" ∨
      (plistDataOf cfg).ExecutableName = "" ∨
      (plistDataOf cfg).MinSystemVersion = "" ∨ (plistDataOf cfg).IconFile = "" := h
  refine ⟨?_, ?_, ?_⟩
  · simp only [CreatePlist, CreatePkgInfo]
    rw [if_pos hcond]
  · intro p hp
    simp only [CreatePlist, CreatePkgInfo]
    rw [if_pos hcond]
    rw [Fs.lookupPath_setEntry_ne _ _ _ _ hp, Fs.lookupPath_setEntry_ne _ _ _ _ hp]
  · simp only [CreatePlist, CreatePkgInfo]
    rw [if_pos hcond]
    exact Fs.lookupPath_setEntry_self _ _ _

/-- Configuration of the C4 witness: all mandatory fields set except the
icon filename. -/
def c4WitnessCfg : PackageParameter :=
  { BundleIdentifier := "com.x.sample", BundleName := "Sample",
    BundleVersion := "1.0", BundleExecutable := "launch",
    MinimumMacOSVersion := "10.13.0" }

/-- Witness for C4: a configuration with an empty icon filename leaves the
PkgInfo file on disk, does not write `Info.plist`, and reports the
validation error. -/
theorem c4_plist_validation_witness :
    (CreatePlist c4WitnessCfg (layoutOf "Sample") false []).1 =
      some "Info.plist <mandatory fields missing>" ∧
    Fs.lookupPath (CreatePlist c4WitnessCfg (layoutOf "Sample") false []).2
      "Sample.app/Contents/Info.plist" = none ∧
    Fs.lookupPath (CreatePlist c4WitnessCfg (layoutOf "Sample") false []).2
      "Sample.app/Contents/PkgInfo" = some (FsEntry.file "APPL????" 0o666) := by
  have h := c4_plist_validation c4WitnessCfg (layoutOf "Sample") []
    (Or.inr (Or.inr (Or.inr (Or.inr (Or.inr rfl)))))
  refine ⟨h.1, ?_, ?_⟩
  · rw [h.2.1 "Sample.app/Contents/Info.plist" (by decide)]
    rfl
  · rw [show ("Sample.app/Contents/PkgInfo" : String) =
      joinPath (layoutOf "Sample").contentsDir "PkgInfo" from rfl]
    rw [h.2.2]
    rfl

/-- Configuration of the C1 counterexample: every plist-mandatory field
except the icon filename is set, and the executable source exists on disk,
so the run passes pre-flight validation (which skips the icon check when the
icon filename is empty), creates the full directory structure and writes
PkgInfo, and then fails plist validation. -/
def c1Cfg : PackageParameter :=
  { BundleIdentifier := "com.x.sample", BundleName := "Sample",
    BundleVersion := "1.0", BundleExecutable := "launch",
    MinimumMacOSVersion := "10.13.0", ExecFileName := "app.bin",
    ExecFileDirectory := "dist" }

def c1Fs : Fs := [("dist/app.bin", FsEntry.file "BIN" 0o755)]

/-- C1 counterexample: a failure after the bundle directory structure has
been created (the plist mandatory-field validation error) terminates the run
with the bundle root and the already-written `Contents/PkgInfo` still on
disk — the final state does contain a half-built bundle, so not every
post-creation failure triggers recursive deletion of the bundle root. -/
theorem c1_counterexample :
    (runMain c1Cfg false false none c1Fs).1.isSome = true ∧
    Fs.pathExists (runMain c1Cfg false false none c1Fs).2.2 "Sample.app" = true ∧
    Fs.pathExists (runMain c1Cfg false false none c1Fs).2.2
      "Sample.app/Contents/PkgInfo" = true := by
  exact ⟨rfl, rfl, rfl⟩

/-- C1 amended: the recursive-deletion guarantee holds only on the failure
paths that run `cleanAfterError` — a failure of the metadata-file
creation/rendering step itself (here: `os.Create` of `Info.plist` failing
after validation passed).  On that path the whole bundle root, including the
already-written PkgInfo, is removed before the error is returned. -/
theorem c1_cleanAfterError_amended (cfg : PackageParameter) (root : String)
    (fs : Fs) (hid : cfg.BundleIdentifier ≠ "") (hver : cfg.BundleVersion ≠ "")
    (hname : cfg.BundleName ≠ "") (hexec : cfg.BundleExecutable ≠ "")
    (hmin : cfg.MinimumMacOSVersion ≠ "") (hicon : cfg.IconFileName ≠ "") :
    (CreatePlist cfg (layoutOf root) true fs).1.isSome = true ∧
    ∀ p, isUnder (root ++ ".app") p = true →
      Fs.pathExists (CreatePlist cfg (layoutOf root) true fs).2 p = false := by
  have hcond : ¬ ((plistDataOf cfg).BundleIdentifier = "" ∨
      (plistDataOf cfg).BundleVersion = "" ∨ (plistDataOf cfg).BundleName = "" ∨
      (plistDataOf cfg).ExecutableName = "" ∨
      (plistDataOf cfg).MinSystemVersion = "" ∨ (plistDataOf cfg).IconFile = "") := by
    simp only [not_or]
    exact ⟨hid, hver, hname, hexec, hmin, hicon⟩
  have happ : (layoutOf root).applicationDirectory = root ++ ".app" := rfl
  constructor
  · simp only [CreatePlist, CreatePkgInfo]
    rw [if_neg hcond, if_pos trivial]
    rfl
  · intro p hp
    simp only [CreatePlist, CreatePkgInfo]
    rw [if_neg hcond, if_pos trivial]
    show Fs.pathExists (cleanAfterErrorFs (layoutOf root) _) p = false
    rw [cleanAfterErrorFs, if_pos (by rw [happ]; exact appApp_ne_empty root)]
    show Fs.pathExists (Fs.removeAll _ (layoutOf root).applicationDirectory) p = false
    rw [happ]
    exact Fs.pathExists_removeAll_of_isUnder _ _ _ (appApp_ne_empty root) hp

/-- Witness for the amended C1: at a fully-populated configuration, a failed
`Info.plist` creation leaves neither the bundle root nor the PkgInfo written
moments earlier. -/
theorem c1_cleanAfterError_amended_witness :
    (CreatePlist c9WitnessCfg (layoutOf "Sample") true
        [("Sample.app", FsEntry.dir 0o755)]).1.isSome = true ∧
    Fs.pathExists (CreatePlist c9WitnessCfg (layoutOf "Sample") true
        [("Sample.app", FsEntry.dir 0o755)]).2 "Sample.app" = false ∧
    Fs.pathExists (CreatePlist c9WitnessCfg (layoutOf "Sample") true
        [("Sample.app", FsEntry.dir 0o755)]).2
      "Sample.app/Contents/PkgInfo" = false := by
  have h := c1_cleanAfterError_amended c9WitnessCfg "Sample"
    [("Sample.app", FsEntry.dir 0o755)] (by decide) (by decide) (by decide)
    (by decide) (by decide) (by decide)
  exact ⟨h.1, h.2 "Sample.app" (by decide),
    h.2 "Sample.app/Contents/PkgInfo" (by decide)⟩

def c7Fs : Fs :=
  [("X.app", FsEntry.dir 0o755), ("X.app/junk", FsEntry.file "data" 0o644)]

/-- C7 counterexample: with a valid (non-empty) root name `"X"` and a
pre-existing `X.app` directory that already holds content,
`CreateDirectoryStructure` succeeds (`os.MkdirAll` is a no-op on existing
directories) and the immediately following `DeleteAll` removes the whole
root recursively — destroying the pre-existing content — so the filesystem
is not left in its pre-call state. -/
theorem c7_counterexample :
    ("X" : String) ≠ "" ∧
    (CreateDirectoryStructure "X" initState c7Fs).1 = none ∧
    (DeleteAll (CreateDirectoryStructure "X" initState c7Fs).2.1
        (CreateDirectoryStructure "X" initState c7Fs).2.2).2 ≠ c7Fs := by
  refine ⟨by decide, rfl, by decide⟩

/-- C7 amended: the create-then-teardown round trip restores the pre-call
state exactly when nothing at or below `<name>.app` existed beforehand;
teardown itself reports no error. -/
theorem c7_roundtrip_amended (root : String) (fs : Fs) (hroot : root ≠ "")
    (hclean : ∀ kv ∈ fs, isUnder (root ++ ".app") kv.1 = false) :
    (CreateDirectoryStructure root initState fs).1 = none ∧
    (DeleteAll (CreateDirectoryStructure root initState fs).2.1
        (CreateDirectoryStructure root initState fs).2.2).1 = none ∧
    (DeleteAll (CreateDirectoryStructure root initState fs).2.1
        (CreateDirectoryStructure root initState fs).2.2).2 = fs := by
  have happne : root ++ ".app" ≠ "" := appApp_ne_empty root
  have h1 : isUnder (root ++ ".app") (layoutOf root).applicationDirectory = true :=
    isUnder_self _
  have h2 : isUnder (root ++ ".app") (layoutOf root).contentsDir = true :=
    isUnder_joinPath _ _ _ happne (by decide) h1
  have h3 : isUnder (root ++ ".app") (layoutOf root).macosDir = true :=
    isUnder_joinPath _ _ _ happne (by decide) h2
  have h4 : isUnder (root ++ ".app") (layoutOf root).resourcesDir = true :=
    isUnder_joinPath _ _ _ happne (by decide) h2
  have h5 : isUnder (root ++ ".app") (layoutOf root).javaDir = true :=
    isUnder_joinPath _ _ _ happne (by decide) h2
  have h6 : isUnder (root ++ ".app") (layoutOf root).runtimeDir = true :=
    isUnder_joinPath _ _ _ happne (by decide) h5
  refine ⟨?_, ?_, ?_⟩
  · simp only [CreateDirectoryStructure]
    rw [if_pos hroot]
  · rfl
  · simp only [CreateDirectoryStructure, DeleteAll]
    rw [if_pos hroot]
    show Fs.removeAll _ (layoutOf root).applicationDirectory = fs
    have happ : (layoutOf root).applicationDirectory = root ++ ".app" := rfl
    rw [happ]
    rw [Fs.removeAll_mkdirAll_of_isUnder _ _ _ happne h6,
      Fs.removeAll_mkdirAll_of_isUnder _ _ _ happne h5,
      Fs.removeAll_mkdirAll_of_isUnder _ _ _ happne h4,
      Fs.removeAll_mkdirAll_of_isUnder _ _ _ happne h3,
      Fs.removeAll_mkdirAll_of_isUnder _ _ _ happne h2,
      Fs.removeAll_mkdirAll_of_isUnder _ _ _ happne (happ ▸ h1)]
    exact Fs.removeAll_eq_self fs _ hclean

/-- Witness for the amended C7: a concrete round trip over a disk state that
holds only unrelated entries restores it exactly. -/
theorem c7_roundtrip_amended_witness :
    (DeleteAll (CreateDirectoryStructure "Sample" initState
        [("dist/app.bin", FsEntry.file "BIN" 0o755)]).2.1
      (CreateDirectoryStructure "Sample" initState
        [("dist/app.bin", FsEntry.file "BIN" 0o755)]).2.2).2 =
      [("dist/app.bin", FsEntry.file "BIN" 0o755)] :=
  (c7_roundtrip_amended "Sample" [("dist/app.bin", FsEntry.file "BIN" 0o755)]
    (by decide) (by decide)).2.2

/-- C8: pre-flight validation is the first stage of the run, before any
directory creation; when the configured `exec_file` resolves to a path that
does not exist, the run terminates with an error, the on-disk state is
exactly the initial one (so no directory under `<name>.app` was created),
and the layout variables were never initialized. -/
theorem c8_preflight_first (cfg : PackageParameter) (clean del : Bool)
    (jres : Option String) (fs0 : Fs)
    (h : Fs.pathExists fs0 (joinPath (execDirOf cfg) (GetExecutableName cfg)) = false) :
    (runMain cfg clean del jres fs0).1.isSome = true ∧
    (runMain cfg clean del jres fs0).2.2 = fs0 ∧
    (runMain cfg clean del jres fs0).2.1 = initState ∧
    ∀ p, Fs.pathExists fs0 p = false →
      Fs.pathExists (runMain cfg clean del jres fs0).2.2 p = false := by
  have hv : ValidateConfiguration cfg fs0 =
      some ("executable file not found: " ++
        joinPath (execDirOf cfg) (GetExecutableName cfg)) := by
    simp only [ValidateConfiguration]
    rw [if_pos (by simp [h])]
  refine ⟨?_, ?_, ?_, ?_⟩
  · simp only [runMain, hv]
    rfl
  · simp only [runMain, hv]
  · simp only [runMain, hv]
  · intro p hp
    simp only [runMain, hv]
    exact hp

/-- Witness for C8: a configuration whose `exec_file` points at a missing
`dist/app.bin` on an empty disk fails with the disk left empty. -/
theorem c8_preflight_first_witness :
    (runMain c2Cfg true true none []).1.isSome = true ∧
    (runMain c2Cfg true true none []).2.2 = [] ∧
    Fs.pathExists (runMain c2Cfg true true none []).2.2 "Sample.app" = false := by
  have h := c8_preflight_first c2Cfg true true none [] (by decide)
  exact ⟨h.1, h.2.1, h.2.2.2 "Sample.app" (by decide)⟩

/-- C5: payload staging takes the JAR strategy exactly when the configured
executable filename ends in the literal, case-sensitive suffix `"jar"`
(`strings.HasSuffix`); otherwise the binary strategy runs, which copies the
named file byte-for-byte from the resolved source directory into the
bundle's `Contents/MacOS` directory and then sets its permissions to
0755. -/
theorem c5_strategy_selection (cfg : PackageParameter) (s : AppState)
    (jres : Option String) (fs : Fs) :
    (goHasSuffix (GetExecutableName cfg) "jar" = true →
      CopyExecutable cfg s jres fs =
        (none, (copyJarExec cfg s jres fs (execDirOf cfg)
          (GetExecutableName cfg)).2)) ∧
    (goHasSuffix (GetExecutableName cfg) "jar" = false →
      CopyExecutable cfg s jres fs =
        (none, (copyCompExec s fs (execDirOf cfg) (GetExecutableName cfg)).2) ∧
      ∀ c m,
        Fs.lookupPath fs (joinPath (execDirOf cfg) (GetExecutableName cfg)) =
          some (FsEntry.file c m) →
        joinPath (execDirOf cfg) (GetExecutableName cfg) ≠
          joinPath s.macosDir (GetExecutableName cfg) →
        Fs.lookupPath (CopyExecutable cfg s jres fs).2
          (joinPath s.macosDir (GetExecutableName cfg)) =
            some (FsEntry.file c 0o755)) := by
  constructor
  · intro h
    simp only [CopyExecutable, h, if_true]
  · intro h
    constructor
    · simp only [CopyExecutable, h, Bool.false_eq_true, if_false]
    · intro c m hsrc hne
      simp only [CopyExecutable, h, Bool.false_eq_true, if_false]
      simp only [copyCompExec, fmCopy]
      rw [Fs.lookupPath_setEntry_ne _ _ _ _ hne, hsrc]
      show Fs.lookupPath (Fs.chmod (Fs.setEntry _ _ _) _ 0o755) _ = _
      rw [Fs.lookupPath_chmod_self, Fs.lookupPath_setEntry_self]
      rfl

/-- Witness for C5: the uppercase filename `App.JAR` does not match the
case-sensitive suffix, so the binary strategy copies it verbatim into
`Contents/MacOS` with mode 0755. -/
theorem c5_strategy_selection_witness :
    Fs.lookupPath (CopyExecutable
        { BundleName := "Sample", ExecFileName := "App.JAR",
          ExecFileDirectory := "dist" } (layoutOf "Sample") none
        [("dist/App.JAR", FsEntry.file "JARBYTES" 0o644)]).2
      "Sample.app/Contents/MacOS/App.JAR" =
        some (FsEntry.file "JARBYTES" 0o755) := by
  have h := (c5_strategy_selection
    { BundleName := "Sample", ExecFileName := "App.JAR",
      ExecFileDirectory := "dist" } (layoutOf "Sample") none
    [("dist/App.JAR", FsEntry.file "JARBYTES" 0o644)]).2 (by decide)
  exact h.2 "JARBYTES" 0o644 (by decide) (by decide)

/-- The C6 failing input: a Java-home tree holding a regular `java` binary
and a symlink `java-alias -> java` (the link owned by uid 501 / gid 20)
whose `Stat` resolution is that 0755 regular file owned by uid 0 / gid 0. -/
def c6FailingTree : EntryList :=
  EntryList.cons (Entry.file "java" "ELF" 0o755 0 0)
    (EntryList.cons
      (Entry.symlink "java-alias" "java" 501 20 (Resolution.toFile "ELF" 0o755 0 0))
      EntryList.nil)

/-- The tree the code actually produces for `c6FailingTree`: the symlink
entry has become a plain regular file with the target's content, mode 0666
(the chmod is skipped for symlink entries) and the target's ownership. -/
def c6CopiedTree : EntryList :=
  EntryList.cons (Entry.file "java" "ELF" 0o755 0 0)
    (EntryList.cons (Entry.file "java-alias" "ELF" 0o666 0 0) EntryList.nil)

/-- C6 (code bug): the claim (and the spec, and the source's own
`CopySymLink` comments) say the Java-home copy recreates symbolic links as
links, preserving ownership and permissions for every entry — but the
source's type switch dispatches on `os.Stat`, which follows links, so its
`os.ModeSymlink` branch is dead.  Evaluating the copy at the failing input:
the input tree contains a symlink, the output tree contains none — the link
became a plain 0666 regular file with the target's content and ownership
(neither the link's ownership nor the target's 0755 mode is preserved) —
and a tree with a broken link makes the copy abort with a stat error
instead of recreating the link. -/
theorem c6_symlink_not_recreated :
    CopyDirectory 99 99 c6FailingTree = Except.ok c6CopiedTree ∧
    childrenHaveSymlink c6FailingTree = true ∧
    childrenHaveSymlink c6CopiedTree = false ∧
    CopyDirectory 99 99
        (EntryList.cons (Entry.symlink "dead" "gone" 501 20 Resolution.broken)
          EntryList.nil) =
      Except.error "stat dead: no such file or directory" := by
  exact ⟨rfl, rfl, rfl, rfl⟩
